import Mathlib

/-!
Shallow embedding of `src/abstractLocator.ts` (class `AbstractLocator`) from the
vscode-project-manager repository, together with proofs about its scanning and
caching behaviour.

Modelling conventions:
* A filesystem path is represented by the list of its separator-split segments
  (`FPath`); `getPathDepth s = s.split(path.sep).length` therefore becomes list
  length, and `path.basename` becomes the last segment.
* The abstract hooks (`isRepoDir`, `decideProjectName`), the external
  `PathUtils` helpers (`expandHomePath`, `compactHomePath`) and the filesystem
  itself are collected in an `Env` record and passed explicitly.
* Mutable instance state (`dirList`, `maxDepth`, `ignoredFolders`,
  `useCachedProjects`, `alreadyLocated`, `baseFolders`) becomes `LocState`;
  the on-disk cache file is an `Option CacheData` in `World`.
* `config.get<string[]>(kind + ".baseFolders")` has no default and can yield
  `undefined`; this nullability is modelled with `Option`.  JavaScript code
  that throws (a `JSON.parse` failure on a corrupt cache file, reading
  `.length` of an undefined `baseFolders`) is modelled with `Except`.
* The directory walk of the external `walker` library is modelled from its
  documented contract, used at lines 116-125 of the source: `filterDir`
  decides, for every directory the walk reaches (the start directory
  included), whether that directory is emitted as a `dir` event and recursed
  into; a directory rejected by `filterDir` is skipped together with its whole
  subtree.  The per-base-folder walks, which the source starts concurrently on
  one logical thread, are modelled sequentially in base-folder order.
-/

namespace ProjectLocator

/-- A filesystem path, as the list of its separator-split segments. -/
abbrev FPath := List String

/-- Source `getPathDepth` (line 41): `s.split(path.sep).length`. -/
def getPathDepth (s : FPath) : Nat := s.length

/-- Source `path.basename`: the last path segment. -/
def basename (p : FPath) : String := p.getLastD ""

/-- Source interface `DirInfo` (lines 12-15). -/
structure DirInfo where
  fullPath : FPath
  name : String
deriving DecidableEq, Repr

/-- Source `Project` (from `./storage`), as constructed at lines 187-192. -/
structure Project where
  rootPath : FPath
  name : String
  group : String
  paths : List String
deriving DecidableEq, Repr

/-- A directory tree: one directory together with its named subdirectories.
Only directories are modelled; the walker's file/symlink events are unused by
the source's handlers. -/
inductive FsTree : Type where
  | dir : String → List FsTree → FsTree
deriving Repr

/-- The name of the directory at the root of the tree. -/
def FsTree.name : FsTree → String
  | .dir n _ => n

/-- The subdirectories of the directory at the root of the tree. -/
def FsTree.children : FsTree → List FsTree
  | .dir _ cs => cs

/-- External collaborators of the locator: the two abstract hooks used by the
scan, the `PathUtils` path helpers, and the filesystem (mapping a path to the
directory tree rooted there, or `none` when `fs.existsSync` is false). -/
structure Env where
  isRepoDir : FPath → Bool
  decideProjectName : FPath → String
  expandHomePath : String → FPath
  compactHomePath : FPath → FPath
  fs : FPath → Option FsTree

/-- The bytes of the on-disk cache file: either content that `JSON.parse`
reads back as a `DirList`, or malformed content on which `JSON.parse` throws. -/
inductive CacheData : Type where
  | valid : List DirInfo → CacheData
  | corrupt : CacheData
deriving DecidableEq, Repr

/-- The mutable instance fields of `AbstractLocator` (lines 20-25).
`baseFolders` is an `Option` because `config.get` for the baseFolders key has
no default value and can yield `undefined`. -/
structure LocState where
  dirList : List DirInfo
  maxDepth : Int
  ignoredFolders : List String
  useCachedProjects : Bool
  alreadyLocated : Bool
  baseFolders : Option (List String)
deriving DecidableEq, Repr

/-- The locator state together with the on-disk cache file (`none` when
`fs.existsSync(cacheFile)` is false). -/
structure World where
  state : LocState
  cacheFile : Option CacheData
deriving DecidableEq, Repr

/-- Errors a call can throw: a `JSON.parse` failure on a corrupt cache file,
or the `TypeError` of reading `.length` of an undefined `baseFolders`. -/
inductive LocError : Type where
  | parseError : LocError
  | nullBaseFolders : LocError
deriving DecidableEq, Repr

/-- Source `isMaxDeptReached` (lines 45-47). -/
def isMaxDeptReached (maxDepth : Int) (currentDepth initialDepth : Nat) : Bool :=
  decide (maxDepth > 0) && decide ((currentDepth : Int) - (initialDepth : Int) > maxDepth)

/-- Source `isFolderIgnored` (lines 49-51): `ignoredFolders.indexOf(folder) !== -1`
(`List.indexOf` returns the length when the element is absent, playing the
role of the `-1` sentinel). -/
def isFolderIgnored (ignoredFolders : List String) (folder : String) : Bool :=
  !(List.indexOf folder ignoredFolders == ignoredFolders.length)

/-- The `filterDir` callback passed to the walker (lines 117-120). -/
def filterDir (ignoredFolders : List String) (maxDepth : Int) (initialDepth : Nat)
    (dir : FPath) : Bool :=
  !(isFolderIgnored ignoredFolders (basename dir) ||
    isMaxDeptReached maxDepth (getPathDepth dir) initialDepth)

mutual
/-- The walker's traversal (modelled from the library contract, see the file
header): `walkVisited flt p t` is the list of directories of the tree `t`
(whose root directory has full path `p`) that are emitted as `dir` events —
i.e. handed to `processDirectory` — in visit order.  A directory rejected by
`flt` is neither emitted nor recursed into. -/
def walkVisited (flt : FPath → Bool) (p : FPath) : FsTree → List FPath
  | .dir _ cs => if flt p then p :: walkChildren flt p cs else []

/-- Traversal of the subdirectory list of a directory with full path `p`. -/
def walkChildren (flt : FPath → Bool) (p : FPath) : List FsTree → List FPath
  | [] => []
  | c :: rest => walkVisited flt (p ++ [c.name]) c ++ walkChildren flt p rest
end

/-- The directories of one base folder's walk that are handed to
`processDirectory` (line 121): the walk starts at the home-expanded base path
(line 105) with `initialDepth` its own depth (line 112), and is skipped
entirely when the expanded base path does not exist (lines 106-110). -/
def perBaseVisited (env : Env) (ignoredFolders : List String) (maxDepth : Int)
    (basePath : String) : List FPath :=
  let expanded := env.expandHomePath basePath
  match env.fs expanded with
  | none => []
  | some t =>
      walkVisited (filterDir ignoredFolders maxDepth (getPathDepth expanded)) expanded t

/-- The `DirInfo` entry that `processDirectory`/`addToList` (lines 144-157)
append for a matching directory: `addToList(absPath, decideProjectName(absPath))`. -/
def mkEntry (env : Env) (p : FPath) : DirInfo :=
  { fullPath := p, name := env.decideProjectName p }

/-- Source `processDirectory` (lines 152-157) applied to one base folder's walk:
every emitted directory satisfying `isRepoDir` is appended, in visit order. -/
def perBaseScan (env : Env) (ignoredFolders : List String) (maxDepth : Int)
    (basePath : String) : List DirInfo :=
  ((perBaseVisited env ignoredFolders maxDepth basePath).filter env.isRepoDir).map
    (mkEntry env)

/-- The whole scan of lines 104-132: one walk per configured base folder,
results accumulated in the shared `dirList`. -/
def scanAll (env : Env) (ignoredFolders : List String) (maxDepth : Int)
    (bases : List String) : List DirInfo :=
  match bases with
  | [] => []
  | b :: rest => perBaseScan env ignoredFolders maxDepth b ++ scanAll env ignoredFolders maxDepth rest

/-- Source `isAlreadyLocated` (lines 53-55). -/
def isAlreadyLocated (s : LocState) : Bool := s.useCachedProjects && s.alreadyLocated

/-- Source `setAlreadyLocated` (lines 57-65): a no-op unless `useCachedProjects`;
setting the flag to `true` also serialises `dirList` to the cache file. -/
def setAlreadyLocated (al : Bool) (w : World) : World :=
  if w.state.useCachedProjects then
    let w' : World := { w with state := { w.state with alreadyLocated := al } }
    if al then { w' with cacheFile := some (.valid w'.state.dirList) } else w'
  else w

/-- Source `clearDirList` (lines 67-69). -/
def clearDirList (w : World) : World :=
  { w with state := { w.state with dirList := [] } }

/-- Source `initializeCfg` (lines 71-82).  The `kind` argument only selects the cache
file name; a single locator (hence a single cache file) is modelled.  A corrupt
cache file makes `JSON.parse` throw, which nothing catches. -/
def initializeCfg (w : World) : Except LocError World :=
  if !w.state.useCachedProjects then
    .ok (clearDirList w)
  else
    match w.cacheFile with
    | none => .ok w
    | some (.valid l) =>
        .ok (setAlreadyLocated true { w with state := { w.state with dirList := l } })
    | some .corrupt => .error .parseError

/-- The walk branch of `locateProjects` (lines 101-139): clear the list, walk
every base folder, store the accumulated results, mark as located (persisting
the cache when enabled), and resolve with the list. -/
def scanBranch (env : Env) (w : World) (bases : List String) : World × List DirInfo :=
  let results := scanAll env w.state.ignoredFolders w.state.maxDepth bases
  let w' := setAlreadyLocated true { w with state := { w.state with dirList := results } }
  (w', w'.state.dirList)

/-- Source `locateProjects` (lines 84-142).  Reading `this.baseFolders.length` throws
when the field is `undefined`; with no base folders the call resolves
immediately with `[]`; a cache hit found by `initializeCfg` resolves with the
cached list; otherwise the walk branch runs. -/
def locateProjects (env : Env) (w : World) : Except LocError (World × List DirInfo) :=
  match w.state.baseFolders with
  | none => .error .nullBaseFolders
  | some bases =>
    if bases.length = 0 then .ok (w, [])
    else
      match initializeCfg w with
      | .error e => .error e
      | .ok w1 =>
        if isAlreadyLocated w1.state then .ok (w1, w1.state.dirList)
        else .ok (scanBranch env w1 bases)

/-- The lowercasing of `toLocaleLowerCase` applied to a path, segmentwise
(the separator is unaffected by lowercasing). -/
def lowerPath (p : FPath) : FPath := p.map (fun s => s.toLower)

/-- The matching loop of `existsWithRootPath` (lines 185-194): the first
`dirList` entry whose lowercased `fullPath` equals the lowercased query path or
its (already lowercased) home-compacted form is turned into a `Project`;
falling off the end of the loop yields the not-found sentinel. -/
def findProject : List DirInfo → FPath → FPath → Option Project
  | [], _, _ => none
  | e :: rest, rp, rpHome =>
    if lowerPath e.fullPath == lowerPath rp || lowerPath e.fullPath == rpHome then
      some { rootPath := e.fullPath, name := e.name, group := "", paths := [] }
    else findProject rest rp rpHome

/-- Source `existsWithRootPath` (lines 176-195): runs `initializeCfg` (which may load
the cache), returns the not-found sentinel unless `isAlreadyLocated`, and
otherwise searches `dirList`; no directory walk is ever started. -/
def existsWithRootPath (env : Env) (w : World) (rootPath : FPath) :
    Except LocError (World × Option Project) :=
  match initializeCfg w with
  | .error e => .error e
  | .ok w1 =>
    if !(isAlreadyLocated w1.state) then .ok (w1, none)
    else
      let rootPathUsingHome := lowerPath (env.compactHomePath rootPath)
      .ok (w1, findProject w1.state.dirList rootPath rootPathUsingHome)

/-- Source `arraysAreEquals` (lines 248-269) on string arrays: `false` when either
argument is `null`/`undefined` (`none`); otherwise a length check followed by
elementwise `!==` comparison (the nested-array branch is dead for string
arrays). -/
def arraysAreEquals (array1 array2 : Option (List String)) : Bool :=
  match array1, array2 with
  | none, _ => false
  | _, none => false
  | some a1, some a2 =>
    if a1.length != a2.length then false
    else (List.zip a1 a2).all (fun q => q.1 == q.2)

/-- The host configuration values read by `refreshConfig` (lines 221-243):
`<kind>.baseFolders` (no default, so possibly `undefined`),
`<kind>.ignoredFolders` (default `[]`), `<kind>.maxDepthRecursion`
(default `-1`), `cacheProjectsBetweenSessions` (default `true`). -/
structure HostConfig where
  baseFolders : Option (List String)
  ignoredFolders : List String
  maxDepthRecursion : Int
  cacheProjectsBetweenSessions : Bool
deriving DecidableEq, Repr

/-- Source `refreshConfig` (lines 216-246), returning the updated state and the
`refreshedSomething` flag.  The four checks run in source order; note that the
ignored-folders check at line 228 compares the fresh ignoredFolders value
against `this.baseFolders` — the field as already updated by the check at
lines 222-225. -/
def refreshConfig (cfg : HostConfig) (s : LocState) : LocState × Bool :=
  let bfStep : Option (List String) × Bool :=
    if !(arraysAreEquals s.baseFolders cfg.baseFolders) then (cfg.baseFolders, true)
    else (s.baseFolders, false)
  let igStep : List String × Bool :=
    if !(arraysAreEquals bfStep.1 (some cfg.ignoredFolders)) then (cfg.ignoredFolders, true)
    else (s.ignoredFolders, bfStep.2)
  let mdStep : Int × Bool :=
    if s.maxDepth != cfg.maxDepthRecursion then (cfg.maxDepthRecursion, true)
    else (s.maxDepth, igStep.2)
  let ucStep : Bool × Bool :=
    if s.useCachedProjects != cfg.cacheProjectsBetweenSessions then
      (cfg.cacheProjectsBetweenSessions, true)
    else (s.useCachedProjects, mdStep.2)
  ({ s with
      baseFolders := bfStep.1
      ignoredFolders := igStep.1
      maxDepth := mdStep.1
      useCachedProjects := ucStep.1 }, ucStep.2)

/-- The synchronous part of `refreshProjects` (lines 163-170): refresh the
configuration, clear the in-memory list, delete the cache file if it exists,
and call `setAlreadyLocated(false)` (which consults the refreshed
`useCachedProjects`). -/
def refreshPrepare (cfg : HostConfig) (w : World) : World × Bool :=
  let cc := refreshConfig cfg w.state
  let w1 := clearDirList { w with state := cc.1 }
  let w2 : World := { w1 with cacheFile := none }
  (setAlreadyLocated false w2, cc.2)

/-- Source `refreshProjects` (lines 163-174): the synchronous part followed by the
fire-and-forget `locateProjects()` call.  The returned boolean is the
configuration-change result and is produced regardless of how the scan ends. -/
def refreshProjects (env : Env) (cfg : HostConfig) (w : World) :
    Except LocError World × Bool :=
  let pr := refreshPrepare cfg w
  ((locateProjects env pr.1).map (fun r => r.1), pr.2)

/-- The walk with only the ignored-folder check, stated after the spec's
words for the `maxDepth <= 0` case: "unlimited when maxDepth <= 0" — the
depth check never prunes, only the ignore check does. -/
def perBaseVisitedIgnoreOnly (env : Env) (ignoredFolders : List String)
    (basePath : String) : List FPath :=
  let expanded := env.expandHomePath basePath
  match env.fs expanded with
  | none => []
  | some t =>
      walkVisited (fun dir => !(isFolderIgnored ignoredFolders (basename dir))) expanded t

/-! ### Concrete instances used by witnesses and counterexamples -/

/-- A small filesystem: `work/{node_modules/b, a/x/y}`. -/
def sampleTree : FsTree :=
  .dir "work" [.dir "node_modules" [.dir "b" []], .dir "a" [.dir "x" [.dir "y" []]]]

/-- A concrete environment over `sampleTree` in which every directory counts
as a repository root. -/
def sampleEnv : Env :=
  { isRepoDir := fun _ => true
    decideProjectName := basename
    expandHomePath := fun s => [s]
    compactHomePath := id
    fs := fun p => if p = ["work"] then some sampleTree else none }

/-- A fresh locator over `sampleEnv` with caching enabled and no cache file. -/
def sampleWorld : World :=
  { state :=
      { dirList := []
        maxDepth := -1
        ignoredFolders := []
        useCachedProjects := true
        alreadyLocated := false
        baseFolders := some ["work"] }
    cacheFile := none }

/-- The scan results of `sampleWorld`'s single base folder. -/
def sampleScan : List DirInfo := scanAll sampleEnv [] (-1) ["work"]

/-- The world `sampleWorld` after one completed `locateProjects` call. -/
def sampleWorld1 : World :=
  { state := { sampleWorld.state with dirList := sampleScan, alreadyLocated := true }
    cacheFile := some (.valid sampleScan) }

/-- A locator state whose cache file is corrupt. -/
def corruptWorld : World :=
  { state := sampleWorld.state, cacheFile := some .corrupt }

/-- A locator state with caching disabled. -/
def noCacheWorld : World :=
  { state := { sampleWorld.state with useCachedProjects := false, alreadyLocated := true }
    cacheFile := none }

/-- Prior locator state for the `refreshConfig` counterexample: the old
`baseFolders` is `["a"]` and the old `ignoredFolders` is `["x"]`. -/
def cexState : LocState :=
  { dirList := []
    maxDepth := -1
    ignoredFolders := ["x"]
    useCachedProjects := true
    alreadyLocated := false
    baseFolders := some ["a"] }

/-- Host configuration for the `refreshConfig` counterexample: the fresh
`baseFolders` is `["b"]` and the fresh `ignoredFolders` is `["a"]` — equal,
elementwise, to the old `baseFolders`. -/
def cexConfig : HostConfig :=
  { baseFolders := some ["b"]
    ignoredFolders := ["a"]
    maxDepthRecursion := -1
    cacheProjectsBetweenSessions := true }

/-- A host configuration whose `baseFolders` key yields no array. -/
def nullBaseConfig : HostConfig :=
  { baseFolders := none
    ignoredFolders := []
    maxDepthRecursion := -1
    cacheProjectsBetweenSessions := true }

/-- A host configuration that disables caching. -/
def noCacheConfig : HostConfig :=
  { baseFolders := some ["work"]
    ignoredFolders := []
    maxDepthRecursion := -1
    cacheProjectsBetweenSessions := false }

/-! ### General lemmas about the embedding -/

theorem isFolderIgnored_iff {ig : List String} {s : String} :
    isFolderIgnored ig s = true ↔ s ∈ ig := by
  simp [isFolderIgnored, List.indexOf_eq_length]

theorem mem_walkChildren {flt : FPath → Bool} {p q : FPath} {cs : List FsTree} :
    q ∈ walkChildren flt p cs ↔ ∃ c ∈ cs, q ∈ walkVisited flt (p ++ [c.name]) c := by
  induction cs with
  | nil => simp [walkChildren]
  | cons c rest ih => simp [walkChildren, ih]

theorem prefixOfAppendSingleton {p r : FPath} {a : String}
    (h1 : p <+: r) (h2 : r <+: p ++ [a]) : r = p ∨ r = p ++ [a] := by
  have hl1 := h1.length_le
  have hl2 := h2.length_le
  simp at hl2
  rcases Nat.lt_or_ge r.length (p.length + 1) with h | h
  · left
    exact (h1.eq_of_length (Nat.le_antisymm hl1 (by omega))).symm
  · right
    exact h2.eq_of_length (by simp; omega)

theorem prefixTotal {l1 l2 l3 : FPath} (h1 : l1 <+: l3) (h2 : l2 <+: l3) :
    l1 <+: l2 ∨ l2 <+: l1 := by
  induction l3 generalizing l1 l2 with
  | nil =>
    left
    simp_all
  | cons a t ih =>
    match l1, l2 with
    | [], _ => exact Or.inl List.nil_prefix
    | _, [] => exact Or.inr List.nil_prefix
    | b :: l1', c :: l2' =>
      obtain ⟨hb, h1'⟩ := List.cons_prefix_cons.mp h1
      obtain ⟨hc, h2'⟩ := List.cons_prefix_cons.mp h2
      subst hb; subst hc
      rcases ih h1' h2' with h | h
      · exact Or.inl (List.cons_prefix_cons.mpr ⟨rfl, h⟩)
      · exact Or.inr (List.cons_prefix_cons.mpr ⟨rfl, h⟩)

mutual
/-- Soundness of the walk: any emitted directory `q` extends the start
directory `p`, and the filter accepted every directory on the walk from `p`
down to `q` — `q` itself included. -/
theorem walkVisited_anc {flt : FPath → Bool} :
    ∀ (t : FsTree) (p q : FPath), q ∈ walkVisited flt p t →
      p <+: q ∧ ∀ r, p <+: r → r <+: q → flt r = true
  | .dir n cs, p, q, h => by
    rw [walkVisited] at h
    by_cases hp : flt p = true
    · rw [if_pos hp] at h
      rcases List.mem_cons.mp h with rfl | h'
      · refine ⟨List.prefix_refl _, fun r hr1 hr2 => ?_⟩
        have heq : r = q := hr2.eq_of_length
          (Nat.le_antisymm hr2.length_le hr1.length_le)
        subst heq; exact hp
      · obtain ⟨c, hc, hq⟩ := mem_walkChildren.mp h'
        have IH := walkVisited_anc c (p ++ [c.name]) q hq
        have hpq : p <+: q := (List.prefix_append p [c.name]).trans IH.1
        refine ⟨hpq, fun r hr1 hr2 => ?_⟩
        rcases prefixTotal hr2 IH.1 with hcmp | hcmp
        · rcases prefixOfAppendSingleton hr1 hcmp with rfl | rfl
          · exact hp
          · exact IH.2 _ (List.prefix_refl _) hr2
        · exact IH.2 r hcmp hr2
    · simp [hp] at h
end

/-- Every emitted directory itself passed the filter. -/
theorem walkVisited_flt {flt : FPath → Bool} {t : FsTree} {p q : FPath}
    (h : q ∈ walkVisited flt p t) : flt q = true :=
  (walkVisited_anc t p q h).2 q (walkVisited_anc t p q h).1 (List.prefix_refl _)

theorem initializeCfg_none {w : World} (hc : w.state.useCachedProjects = true)
    (hcf : w.cacheFile = none) : initializeCfg w = .ok w := by
  simp [initializeCfg, hc, hcf]

theorem initializeCfg_valid {w : World} {l : List DirInfo}
    (hc : w.state.useCachedProjects = true)
    (hcf : w.cacheFile = some (.valid l)) :
    initializeCfg w =
      .ok { state := { w.state with dirList := l, alreadyLocated := true },
            cacheFile := some (.valid l) } := by
  simp [initializeCfg, hc, hcf, setAlreadyLocated]

theorem initializeCfg_corrupt {w : World} (hc : w.state.useCachedProjects = true)
    (hcf : w.cacheFile = some .corrupt) : initializeCfg w = .error .parseError := by
  simp [initializeCfg, hc, hcf]

/-- A world whose cache file already holds exactly its in-memory list and whose
located flag is set is a fixed point of `initializeCfg`. -/
theorem initializeCfg_fix {w : World}
    (h1 : w.state.useCachedProjects = true)
    (h2 : w.state.alreadyLocated = true)
    (h3 : w.cacheFile = some (.valid w.state.dirList)) :
    initializeCfg w = .ok w := by
  cases w with
  | mk s cf =>
    cases s
    simp_all [initializeCfg, setAlreadyLocated]

/-- Running `locateProjects` on a world that `initializeCfg` leaves untouched and whose
located flag holds resolves with the in-memory list via the cache-hit path. -/
theorem locateProjects_hit {env : Env} {w1 : World} {bases : List String}
    (hb1 : w1.state.baseFolders = some bases) (hlen : ¬bases.length = 0)
    (hini : initializeCfg w1 = .ok w1) (hloc : isAlreadyLocated w1.state = true) :
    locateProjects env w1 = .ok (w1, w1.state.dirList) := by
  simp only [locateProjects, hb1, if_neg hlen, hini, hloc, if_pos]

theorem mem_scanAll {env : Env} {ig : List String} {md : Int} {bases : List String}
    {e : DirInfo} :
    e ∈ scanAll env ig md bases ↔ ∃ b ∈ bases, e ∈ perBaseScan env ig md b := by
  induction bases with
  | nil => simp [scanAll]
  | cons b rest ih => simp [scanAll, ih]

theorem scanAll_count {env : Env} {ig : List String} {md : Int}
    (bases : List String) (e : DirInfo) :
    (scanAll env ig md bases).count e =
      ((bases.map (fun b2 => (perBaseScan env ig md b2).count e)).sum) := by
  induction bases with
  | nil => simp [scanAll]
  | cons b rest ih => simp [scanAll, List.count_append, ih]

theorem mkEntry_injective (env : Env) : Function.Injective (mkEntry env) := by
  intro a b h
  simpa [mkEntry, DirInfo.mk.injEq] using congrArg DirInfo.fullPath h

theorem findProject_some {l : List DirInfo} {rp rpHome : FPath} {e : DirInfo}
    (he : e ∈ l)
    (hm : lowerPath e.fullPath = lowerPath rp ∨ lowerPath e.fullPath = rpHome) :
    ∃ pr, findProject l rp rpHome = some pr ∧
      ∃ e2 ∈ l, pr.rootPath = e2.fullPath ∧ pr.name = e2.name ∧
        (lowerPath e2.fullPath = lowerPath rp ∨ lowerPath e2.fullPath = rpHome) := by
  induction l with
  | nil => cases he
  | cons hd tl ih =>
    by_cases hcond : (lowerPath hd.fullPath == lowerPath rp ||
        lowerPath hd.fullPath == rpHome) = true
    · refine ⟨_, by rw [findProject, if_pos hcond], hd, List.mem_cons_self hd tl, rfl, rfl, ?_⟩
      simpa using hcond
    · rcases List.mem_cons.mp he with rfl | he2
      · exact absurd (by rcases hm with h | h <;> simp [h]) hcond
      · obtain ⟨pr, hpr, e2, he2m, hrest⟩ := ih he2
        exact ⟨pr, by rw [findProject, if_neg hcond]; exact hpr,
          e2, List.mem_cons_of_mem hd he2m, hrest⟩

/-! ### Claims -/

/-- C1 (counterexample): with `node_modules` ignored, the directory
`work/node_modules` satisfies `isRepoDir`, yet the scan never hands it to
`isRepoDir` (it is not among the visited directories) and no result entry
carries its path — contrary to the claim that an ignored directory is still
tested and appended whenever `isRepoDir` holds for it. -/
theorem C1_counterexample :
    sampleEnv.isRepoDir ["work", "node_modules"] = true ∧
    "node_modules" ∈ (["node_modules"] : List String) ∧
    ["work", "node_modules"] ∉ perBaseVisited sampleEnv ["node_modules"] (-1) "work" ∧
    ∀ e ∈ perBaseScan sampleEnv ["node_modules"] (-1) "work",
      e.fullPath ≠ ["work", "node_modules"] := by decide

/-- C1 (amended): for every folder name `f` in the ignored set, a directory
named `f` is pruned together with its whole subtree: on the walk of a base
folder no visited directory — hence no directory ever passed to `isRepoDir`,
and in particular no result entry's path — lies at or below a directory whose
base name is `f`; result entries all come from visited directories. -/
theorem C1_ignored_fully_pruned (env : Env) (ig : List String) (md : Int)
    (b : String) (f : String) (hf : f ∈ ig) :
    (∀ q ∈ perBaseVisited env ig md b,
      ∀ r, env.expandHomePath b <+: r → r <+: q → basename r ≠ f) ∧
    (∀ e ∈ perBaseScan env ig md b, e.fullPath ∈ perBaseVisited env ig md b) := by
  constructor
  · intro q hq r hr1 hr2
    simp only [perBaseVisited] at hq
    cases hfs : env.fs (env.expandHomePath b) with
    | none => rw [hfs] at hq; simp at hq
    | some t =>
      rw [hfs] at hq
      have hflt := (walkVisited_anc t _ q hq).2 r hr1 hr2
      intro hcon
      subst hcon
      rw [filterDir] at hflt
      rw [isFolderIgnored_iff.mpr hf] at hflt
      simp at hflt
  · intro e he
    simp only [perBaseScan, List.mem_map, List.mem_filter] at he
    obtain ⟨p, ⟨hp, _⟩, rfl⟩ := he
    exact hp

/-- C1 (witness): a concrete instance of the amended claim on `sampleEnv`. -/
theorem C1_witness :
    basename ["work", "a"] ≠ "node_modules" ∧
    ∀ e ∈ perBaseScan sampleEnv ["node_modules"] (-1) "work",
      e.fullPath ∈ perBaseVisited sampleEnv ["node_modules"] (-1) "work" := by
  have h := C1_ignored_fully_pruned sampleEnv ["node_modules"] (-1) "work"
    "node_modules" (by decide)
  exact ⟨h.1 ["work", "a"] (by decide) ["work", "a"] (by decide) (by decide), h.2⟩

/-- C2: with `maxDepth = N > 0` every directory handed to `isRepoDir` during a
base folder's walk lies at most `N` path-segment levels below the (expanded)
base folder — directories beyond that are neither tested nor descended into —
and with `maxDepth <= 0` the depth check never prunes: the walk coincides with
the walk filtered by the ignore check alone. -/
theorem C2_depth_limit (env : Env) (ig : List String) (md : Int) (b : String) :
    (∀ q ∈ perBaseVisited env ig md b, 0 < md →
      (getPathDepth q : Int) - (getPathDepth (env.expandHomePath b) : Int) ≤ md) ∧
    (md ≤ 0 → perBaseVisited env ig md b = perBaseVisitedIgnoreOnly env ig b) := by
  constructor
  · intro q hq hmd
    simp only [perBaseVisited] at hq
    cases hfs : env.fs (env.expandHomePath b) with
    | none => rw [hfs] at hq; simp at hq
    | some t =>
      rw [hfs] at hq
      have hflt := walkVisited_flt hq
      have hmr : isMaxDeptReached md (getPathDepth q)
          (getPathDepth (env.expandHomePath b)) = false := by
        rcases Bool.eq_false_or_eq_true (isMaxDeptReached md (getPathDepth q)
          (getPathDepth (env.expandHomePath b))) with h | h
        · rw [filterDir, h] at hflt; simp at hflt
        · exact h
      simp only [isMaxDeptReached, Bool.and_eq_false_iff, decide_eq_false_iff_not,
        not_lt] at hmr
      rcases hmr with h | h
      · omega
      · omega
  · intro hmd
    have hequal : filterDir ig md (getPathDepth (env.expandHomePath b)) =
        fun dir => !(isFolderIgnored ig (basename dir)) := by
      funext dir
      have hmr : isMaxDeptReached md (getPathDepth dir)
          (getPathDepth (env.expandHomePath b)) = false := by
        simp [isMaxDeptReached]
        omega
      simp [filterDir, hmr]
    simp only [perBaseVisited, perBaseVisitedIgnoreOnly, hequal]

/-- C2 (witness): with `maxDepth = 2` the visited directory `work/a/x` is
within the bound, and with `maxDepth = 0` the walk equals the ignore-only
walk on `sampleEnv`. -/
theorem C2_witness :
    ((getPathDepth ["work", "a", "x"] : Int) -
      (getPathDepth (sampleEnv.expandHomePath "work") : Int) ≤ 2) ∧
    perBaseVisited sampleEnv ["node_modules"] 0 "work" =
      perBaseVisitedIgnoreOnly sampleEnv ["node_modules"] "work" :=
  ⟨(C2_depth_limit sampleEnv ["node_modules"] 2 "work").1 ["work", "a", "x"]
      (by decide) (by decide),
    (C2_depth_limit sampleEnv ["node_modules"] 0 "work").2 (by decide)⟩

/-- C3 (counterexample): with old `baseFolders = ["a"]`, old
`ignoredFolders = ["x"]`, fresh `baseFolders = ["b"]` and fresh
`ignoredFolders = ["a"]`, the fresh ignoredFolders equals the *old*
baseFolders elementwise, so the claim predicts no change for that key; yet
`refreshConfig` updates `ignoredFolders` to `["a"]` — the comparison is not
made against the old baseFolders field. -/
theorem C3_counterexample :
    arraysAreEquals cexState.baseFolders (some cexConfig.ignoredFolders) = true ∧
    (refreshConfig cexConfig cexState).1.ignoredFolders ≠ cexState.ignoredFolders ∧
    (refreshConfig cexConfig cexState).1.ignoredFolders = cexConfig.ignoredFolders := by
  decide

/-- C3 (amended): the ignored-folders change test compares the fresh
ignoredFolders value against the baseFolders field as already updated by the
immediately preceding baseFolders step (the fresh baseFolders value when that
step detected a change, otherwise the old value — which is also the final
baseFolders field); the ignoredFolders field is updated exactly when that
comparison fails, and a failing comparison forces the returned change flag. -/
theorem C3_ignored_compared_to_updated_baseFolders (cfg : HostConfig) (s : LocState) :
    (refreshConfig cfg s).1.baseFolders =
      (if arraysAreEquals s.baseFolders cfg.baseFolders then s.baseFolders
       else cfg.baseFolders) ∧
    (refreshConfig cfg s).1.ignoredFolders =
      (if arraysAreEquals (refreshConfig cfg s).1.baseFolders (some cfg.ignoredFolders)
       then s.ignoredFolders else cfg.ignoredFolders) ∧
    (arraysAreEquals (refreshConfig cfg s).1.baseFolders (some cfg.ignoredFolders) = false →
      (refreshConfig cfg s).2 = true) := by
  simp only [refreshConfig]
  split_ifs <;> simp_all

/-- C3 (witness): the amended claim evaluated on the counterexample input. -/
theorem C3_witness :
    (refreshConfig cexConfig cexState).1.baseFolders = some ["b"] ∧
    (refreshConfig cexConfig cexState).1.ignoredFolders = ["a"] ∧
    (refreshConfig cexConfig cexState).2 = true := by
  have h := C3_ignored_compared_to_updated_baseFolders cexConfig cexState
  refine ⟨by rw [h.1]; decide, by rw [h.2.1, h.1]; decide, h.2.2 (by decide)⟩

/-- C4: with caching enabled, a successful `locateProjects` call followed —
with no filesystem or configuration change — by a second call yields the same
list again, and (when base folders are configured) the second call
short-circuits through the cache: `initializeCfg` leaves the post-call world
fixed and `isAlreadyLocated` holds, so no walk runs. -/
theorem C4_idempotent (env : Env) (w w1 : World) (l1 : List DirInfo)
    (bases : List String)
    (hb : w.state.baseFolders = some bases)
    (hc : w.state.useCachedProjects = true)
    (h1 : locateProjects env w = .ok (w1, l1)) :
    locateProjects env w1 = .ok (w1, l1) ∧
    (bases ≠ [] → initializeCfg w1 = .ok w1 ∧ isAlreadyLocated w1.state = true) := by
  simp only [locateProjects, hb] at h1
  by_cases hlen : bases.length = 0
  · rw [if_pos hlen] at h1
    have hpair := Except.ok.inj h1
    have hw1 := congrArg Prod.fst hpair
    have hl1 := congrArg Prod.snd hpair
    simp only at hw1 hl1
    subst hw1; subst hl1
    refine ⟨by simp only [locateProjects, hb]; rw [if_pos hlen], fun hne => ?_⟩
    exact absurd (List.length_eq_zero.mp hlen) hne
  · rw [if_neg hlen] at h1
    cases hcf : w.cacheFile with
    | none =>
      simp only [initializeCfg_none hc hcf] at h1
      by_cases hloc : w.state.alreadyLocated = true
      · rw [if_pos (show isAlreadyLocated w.state = true by
          simp [isAlreadyLocated, hc, hloc])] at h1
        have hpair := Except.ok.inj h1
        have hw1 := congrArg Prod.fst hpair
        have hl1 := congrArg Prod.snd hpair
        simp only at hw1 hl1
        subst hw1; subst hl1
        have hloc2 : isAlreadyLocated w.state = true := by simp [isAlreadyLocated, hc, hloc]
        exact ⟨locateProjects_hit hb hlen (initializeCfg_none hc hcf) hloc2,
          fun _ => ⟨initializeCfg_none hc hcf, hloc2⟩⟩
      · rw [if_neg (show ¬isAlreadyLocated w.state = true by
          simp [isAlreadyLocated, hc, hloc])] at h1
        have hpair := Except.ok.inj h1
        have hw1 := congrArg Prod.fst hpair
        have hl1 := congrArg Prod.snd hpair
        simp only at hw1 hl1
        subst hw1; subst hl1
        have hini : initializeCfg (scanBranch env w bases).1 =
            .ok (scanBranch env w bases).1 := by
          apply initializeCfg_fix <;> simp [scanBranch, setAlreadyLocated, hc]
        have hloc2 : isAlreadyLocated (scanBranch env w bases).1.state = true := by
          simp [scanBranch, setAlreadyLocated, isAlreadyLocated, hc]
        have hb2 : (scanBranch env w bases).1.state.baseFolders = some bases := by
          simp [scanBranch, setAlreadyLocated, hc, hb]
        have hdl : (scanBranch env w bases).2 = (scanBranch env w bases).1.state.dirList := by
          simp [scanBranch]
        refine ⟨?_, fun _ => ⟨hini, hloc2⟩⟩
        rw [hdl]
        exact locateProjects_hit hb2 hlen hini hloc2
    | some cd =>
      cases cd with
      | corrupt =>
        simp only [initializeCfg_corrupt hc hcf] at h1
        exact absurd h1 (by simp)
      | valid l =>
        simp only [initializeCfg_valid hc hcf] at h1
        rw [if_pos (show isAlreadyLocated
            ({ state := { w.state with dirList := l, alreadyLocated := true },
               cacheFile := some (.valid l) } : World).state = true by
          simp [isAlreadyLocated, hc])] at h1
        have hpair := Except.ok.inj h1
        have hw1 := congrArg Prod.fst hpair
        have hl1 := congrArg Prod.snd hpair
        simp only at hw1 hl1
        subst hw1; subst hl1
        have hini : initializeCfg
            ({ state := { w.state with dirList := l, alreadyLocated := true },
               cacheFile := some (.valid l) } : World) = .ok
            ({ state := { w.state with dirList := l, alreadyLocated := true },
               cacheFile := some (.valid l) } : World) := by
          apply initializeCfg_fix <;> simp [hc]
        have hloc2 : isAlreadyLocated
            ({ state := { w.state with dirList := l, alreadyLocated := true },
               cacheFile := some (.valid l) } : World).state = true := by
          simp [isAlreadyLocated, hc]
        exact ⟨locateProjects_hit (by simp [hb]) hlen hini hloc2, fun _ => ⟨hini, hloc2⟩⟩

/-- C4 (witness): on `sampleWorld` (caching enabled, no cache file yet) the
first call produces `sampleWorld1` and `sampleScan`; the claim then gives the
second call's cache hit. -/
theorem C4_witness :
    locateProjects sampleEnv sampleWorld1 = .ok (sampleWorld1, sampleScan) ∧
    initializeCfg sampleWorld1 = .ok sampleWorld1 ∧
    isAlreadyLocated sampleWorld1.state = true := by
  have h := C4_idempotent sampleEnv sampleWorld sampleWorld1 sampleScan ["work"]
    rfl rfl rfl
  exact ⟨h.1, (h.2 (by decide)).1, (h.2 (by decide)).2⟩

/-- Mapping a list of paths through `mkEntry` preserves occurrence counts:
the entry built from `p` occurs exactly as often as `p` itself does. -/
theorem count_map_mkEntry (env : Env) (l : List FPath) (p : FPath) :
    (l.map (mkEntry env)).count (mkEntry env p) = l.count p := by
  induction l with
  | nil => rfl
  | cons hd tl ih =>
    simp only [List.map_cons, List.count_cons, ih]
    congr 1
    by_cases h : p = hd
    · subst h; simp
    · have h2 : mkEntry env p ≠ mkEntry env hd := fun hcon => h (mkEntry_injective env hcon)
      rw [if_neg (by simpa using Ne.symm h2), if_neg (by simpa using Ne.symm h)]

/-- C5: independently of the prior state of the cache-enabled setting,
`refreshProjects` deletes any existing cache file, clears the in-memory list,
and leaves a world on which the located predicate is false and which
`initializeCfg` keeps unchanged — so the `locateProjects` call it fires
rescans instead of using a cache — while the returned boolean equals exactly
`refreshConfig`'s change result. -/
theorem C5_refresh_forces_rescan (env : Env) (cfg : HostConfig) (w : World) :
    (refreshPrepare cfg w).1.cacheFile = none ∧
    (refreshPrepare cfg w).1.state.dirList = [] ∧
    isAlreadyLocated (refreshPrepare cfg w).1.state = false ∧
    initializeCfg (refreshPrepare cfg w).1 = .ok (refreshPrepare cfg w).1 ∧
    (refreshProjects env cfg w).2 = (refreshConfig cfg w.state).2 := by
  simp only [refreshPrepare, refreshProjects, clearDirList, setAlreadyLocated,
    initializeCfg, isAlreadyLocated]
  split_ifs <;> simp_all

/-- C6: `existsWithRootPath` returns the not-found sentinel (and starts no
walk) whenever `initializeCfg` leaves the locator not-located; when the
locator is located and some `dirList` entry matches the query path
case-insensitively — literally or in home-compacted form — it returns a
project record built from such an entry. -/
theorem C6_existsWithRootPath (env : Env) (w : World) (rp : FPath) :
    (∀ w1, initializeCfg w = .ok w1 → isAlreadyLocated w1.state = false →
      existsWithRootPath env w rp = .ok (w1, none)) ∧
    (∀ w1 e, initializeCfg w = .ok w1 → isAlreadyLocated w1.state = true →
      e ∈ w1.state.dirList →
      (lowerPath e.fullPath = lowerPath rp ∨
        lowerPath e.fullPath = lowerPath (env.compactHomePath rp)) →
      ∃ pr, existsWithRootPath env w rp = .ok (w1, some pr) ∧
        ∃ e2 ∈ w1.state.dirList, pr.rootPath = e2.fullPath ∧ pr.name = e2.name ∧
          (lowerPath e2.fullPath = lowerPath rp ∨
            lowerPath e2.fullPath = lowerPath (env.compactHomePath rp))) := by
  constructor
  · intro w1 hini hloc
    simp only [existsWithRootPath, hini, hloc]
    simp
  · intro w1 e hini hloc he hm
    obtain ⟨pr, hfind, e2, he2, h1, h2, h3⟩ := findProject_some he hm
    refine ⟨pr, ?_, e2, he2, h1, h2, h3⟩
    simp only [existsWithRootPath, hini, hloc, Bool.not_true, if_false, hfind]
    simp

/-- C6 (witness): on the fresh `sampleWorld` the lookup yields the sentinel;
on the located `sampleWorld1` the query `["work"]` finds the matching entry. -/
theorem C6_witness :
    existsWithRootPath sampleEnv sampleWorld ["anything"] = .ok (sampleWorld, none) ∧
    ∃ pr, existsWithRootPath sampleEnv sampleWorld1 ["work"] = .ok (sampleWorld1, some pr) ∧
      ∃ e2 ∈ sampleWorld1.state.dirList, pr.rootPath = e2.fullPath ∧
        pr.name = e2.name ∧
        (lowerPath e2.fullPath = lowerPath ["work"] ∨
          lowerPath e2.fullPath = lowerPath (sampleEnv.compactHomePath ["work"])) := by
  constructor
  · exact (C6_existsWithRootPath sampleEnv sampleWorld ["anything"]).1 sampleWorld rfl
      (by decide)
  · exact (C6_existsWithRootPath sampleEnv sampleWorld1 ["work"]).2 sampleWorld1
      (mkEntry sampleEnv ["work"]) rfl (by decide) (by decide) (Or.inl rfl)

/-- C7: with caching enabled and a corrupt cache file, `initializeCfg` throws
the parse error instead of falling back to an empty list or marking the
locator located, and `locateProjects` propagates that error to its caller. -/
theorem C7_corrupt_cache_throws (env : Env) (w : World) (bases : List String)
    (hc : w.state.useCachedProjects = true)
    (hcf : w.cacheFile = some .corrupt) :
    initializeCfg w = .error .parseError ∧
    (w.state.baseFolders = some bases → bases.length ≠ 0 →
      locateProjects env w = .error .parseError) := by
  refine ⟨initializeCfg_corrupt hc hcf, fun hb hlen => ?_⟩
  simp only [locateProjects, hb, if_neg hlen, initializeCfg_corrupt hc hcf]

/-- C7 (witness): the corrupt cache file of `corruptWorld` makes both calls
throw the parse error. -/
theorem C7_witness :
    initializeCfg corruptWorld = .error .parseError ∧
    locateProjects sampleEnv corruptWorld = .error .parseError := by
  have h := C7_corrupt_cache_throws sampleEnv corruptWorld ["work"] rfl rfl
  exact ⟨h.1, h.2 rfl (by decide)⟩

/-- C8: the scan de-duplicates nothing: every visited directory satisfying
`isRepoDir` contributes an entry to the accumulated list, the accumulated
list's occurrence counts are the sums of the per-base-folder counts (one
occurrence per discovery, even for identical `fullPath`s), and within one
base folder an entry occurs as often as its path passed the filter+predicate. -/
theorem C8_no_dedup (env : Env) (ig : List String) (md : Int) (bases : List String)
    (b : String) (p : FPath) (hb : b ∈ bases)
    (hp : p ∈ perBaseVisited env ig md b) (hrepo : env.isRepoDir p = true) :
    mkEntry env p ∈ scanAll env ig md bases ∧
    (∀ e : DirInfo, (scanAll env ig md bases).count e =
      ((bases.map (fun b2 => (perBaseScan env ig md b2).count e)).sum)) ∧
    (perBaseScan env ig md b).count (mkEntry env p) =
      ((perBaseVisited env ig md b).filter env.isRepoDir).count p := by
  refine ⟨mem_scanAll.mpr ⟨b, hb, ?_⟩, fun e => scanAll_count bases e, ?_⟩
  · simp only [perBaseScan, List.mem_map]
    exact ⟨p, List.mem_filter.mpr ⟨hp, hrepo⟩, rfl⟩
  · simp only [perBaseScan]
    exact count_map_mkEntry env _ p

/-- C8 (witness): scanning the same base folder twice records the `["work"]`
project twice — two distinct entries with the same `fullPath`. -/
theorem C8_witness :
    mkEntry sampleEnv ["work"] ∈ scanAll sampleEnv [] (-1) ["work", "work"] ∧
    (scanAll sampleEnv [] (-1) ["work", "work"]).count (mkEntry sampleEnv ["work"]) = 2 := by
  have h := C8_no_dedup sampleEnv [] (-1) ["work", "work"] "work" ["work"]
    (by decide) (by decide) (by decide)
  exact ⟨h.1, by decide⟩

/-- C9: when `useCachedProjects` is false, `setAlreadyLocated` is a complete
no-op for either boolean argument — the flag keeps its value and no cache file
is written — and in particular `refreshProjects`'s `setAlreadyLocated(false)`
call leaves the flag untouched when the refreshed configuration has caching
disabled. -/
theorem C9_setAlreadyLocated_noop (b : Bool) (cfg : HostConfig) (w : World)
    (h : w.state.useCachedProjects = false) :
    setAlreadyLocated b w = w ∧
    ((refreshConfig cfg w.state).1.useCachedProjects = false →
      (refreshPrepare cfg w).1.state.alreadyLocated = w.state.alreadyLocated) := by
  constructor
  · simp [setAlreadyLocated, h]
  · intro huc
    have hal : (refreshConfig cfg w.state).1.alreadyLocated = w.state.alreadyLocated := by
      simp [refreshConfig]
    simp [refreshPrepare, clearDirList, setAlreadyLocated, huc, hal]

/-- C9 (witness): on `noCacheWorld` (caching off, flag set) both parts hold
concretely with `noCacheConfig`. -/
theorem C9_witness :
    setAlreadyLocated false noCacheWorld = noCacheWorld ∧
    (refreshPrepare noCacheConfig noCacheWorld).1.state.alreadyLocated =
      noCacheWorld.state.alreadyLocated := by
  have h := C9_setAlreadyLocated_noop false noCacheConfig noCacheWorld (by decide)
  exact ⟨h.1, h.2 (by decide)⟩

/-- C10: `arraysAreEquals` is false whenever either argument is missing —
both-missing included, so the check is not reflexive on missing values — and
therefore `refreshConfig` reports a change whenever the host configuration
yields no array for the baseFolders key, whatever the stored field holds. -/
theorem C10_null_arrays_never_equal (a b : Option (List String))
    (cfg : HostConfig) (s : LocState) :
    arraysAreEquals none b = false ∧
    arraysAreEquals a none = false ∧
    (cfg.baseFolders = none → (refreshConfig cfg s).2 = true) := by
  refine ⟨by cases b <;> rfl, by cases a <;> rfl, fun hbf => ?_⟩
  have hcmp : arraysAreEquals s.baseFolders cfg.baseFolders = false := by
    rw [hbf]; cases s.baseFolders <;> rfl
  simp only [refreshConfig, hcmp]
  split_ifs <;> simp_all

/-- C10 (witness): concrete instances, including a state whose stored
`baseFolders` is itself missing. -/
theorem C10_witness :
    arraysAreEquals none (some ["a"]) = false ∧
    arraysAreEquals (some ["a"]) none = false ∧
    (refreshConfig nullBaseConfig cexState).2 = true := by
  have h := C10_null_arrays_never_equal (some ["a"]) (some ["a"]) nullBaseConfig cexState
  exact ⟨h.1, h.2.1, h.2.2 rfl⟩

end ProjectLocator
